import Mathlib

/-!
Verification of the submission review and queue-synchronization core of the
CodeCompBot repository (src/helpers.py, src/listeners/actions/approve_action.py,
src/listeners/actions/review_modal_action.py).

Spreadsheet cells are modelled as strings; the sheet rows are Lean structures
whose fields follow the documented column layout.  Python's `str.strip` and
`str.lower` are modelled over the character list of the string (`pyStrip`,
`pyLower`); `int(...)`-coercion with the callers' try/except is `cellInt`.
-/

set_option autoImplicit false

namespace CodeCompBot

/-- Model of Python `str.strip()`: drop whitespace (space, tab, CR, LF) from
both ends of the string. -/
def pyStrip (s : String) : String :=
  ⟨(((s.data.dropWhile Char.isWhitespace).reverse.dropWhile Char.isWhitespace).reverse)⟩

/-- Model of Python `str.lower()` (ASCII case folding, which covers every
status/key literal the source compares). -/
def pyLower (s : String) : String :=
  ⟨s.data.map Char.toLower⟩

theorem dropWhile_idem {α : Type} (p : α → Bool) (l : List α) :
    (l.dropWhile p).dropWhile p = l.dropWhile p := by
  induction l with
  | nil => rfl
  | cons a t ih =>
    by_cases h : p a
    · simp [List.dropWhile_cons, h, ih]
    · simp [List.dropWhile_cons, h]

theorem length_dropWhile_le {α : Type} (p : α → Bool) (l : List α) :
    (l.dropWhile p).length ≤ l.length := by
  induction l with
  | nil => simp
  | cons a t ih =>
    by_cases h : p a
    · simp only [List.dropWhile_cons, h, if_true]
      exact Nat.le_succ_of_le ih
    · simp [List.dropWhile_cons, h]

theorem dropWhile_of_eq_append {α : Type} (p : α → Bool) (l u v : List α)
    (h : l.dropWhile p = l) (huv : l = u ++ v) : u.dropWhile p = u := by
  cases u with
  | nil => rfl
  | cons a u' =>
    subst huv
    rw [List.cons_append] at h
    have ha : p a = false := by
      by_contra hpa
      have hpa' : p a = true := by
        cases hp : p a
        · exact absurd hp hpa
        · rfl
      rw [List.dropWhile_cons, hpa'] at h
      simp only [if_true] at h
      have hlen := length_dropWhile_le p (u' ++ v)
      rw [h] at hlen
      simp at hlen
    simp [List.dropWhile_cons, ha]

theorem pyStrip_idem (s : String) : pyStrip (pyStrip s) = pyStrip s := by
  unfold pyStrip
  set p := Char.isWhitespace with hp
  set l := s.data with hl
  -- the inner strip, as a character list
  set m := ((l.dropWhile p).reverse.dropWhile p).reverse with hm
  show (⟨((m.dropWhile p).reverse.dropWhile p).reverse⟩ : String) = ⟨m⟩
  -- left strip of m is m: m is a prefix of l.dropWhile p, whose dropWhile is itself
  have hdrop : (l.dropWhile p).dropWhile p = l.dropWhile p := dropWhile_idem p l
  have hsplit : l.dropWhile p = m ++ ((l.dropWhile p).reverse.takeWhile p).reverse := by
    have := List.takeWhile_append_dropWhile (p := p) (l := (l.dropWhile p).reverse)
    calc l.dropWhile p
        = (l.dropWhile p).reverse.reverse := by rw [List.reverse_reverse]
      _ = ((l.dropWhile p).reverse.takeWhile p ++ (l.dropWhile p).reverse.dropWhile p).reverse := by
          rw [this]
      _ = m ++ ((l.dropWhile p).reverse.takeWhile p).reverse := by
          rw [List.reverse_append, hm]
  have hleft : m.dropWhile p = m := dropWhile_of_eq_append p (l.dropWhile p) m _ hdrop hsplit
  rw [hleft]
  -- right strip of m is m: m.reverse.dropWhile p = m.reverse
  have hright : m.reverse.dropWhile p = m.reverse := by
    rw [hm, List.reverse_reverse]
    exact dropWhile_idem p (l.dropWhile p).reverse
  rw [hright, List.reverse_reverse]

/-- One data row of the Submissions sheet, columns A..K
(submission_id, timestamp, slack_user_id, team, member_text, message_url,
photo_url, status, challenge_key, points, reviewed_by). -/
structure SubmissionRow where
  submission_id : String
  timestamp : String
  slack_user_id : String
  team : String
  member_text : String
  message_url : String
  photo_url : String
  status : String
  challenge_key : String
  points : String
  reviewed_by : String
  deriving DecidableEq, Repr

/-- One data row of the Challenges sheet, columns A..D
(challenge_key, challenge_name, points, min_num). -/
structure ChallengeRow where
  challenge_key : String
  challenge_name : String
  points : String
  min_num : String
  deriving DecidableEq, Repr

/-- One row of the Ledger sheet, columns A..F
(timestamp, team, points_delta, challenge_key, submission_id, reviewed_by);
`add_ledger_entry` appends exactly these six values. -/
structure LedgerEntry where
  timestamp : String
  team : String
  points_delta : Int
  challenge_key : String
  submission_id : String
  reviewed_by : String
  deriving DecidableEq, Repr

/-- Digits of a decimal literal to a natural number; `none` when the character
list is empty or holds a non-digit. -/
def digitsToNat (cs : List Char) : Option Nat :=
  if cs = [] then none
  else if cs.all Char.isDigit then
    some (cs.foldl (fun a c => a * 10 + (c.toNat - 48)) 0)
  else none

/-- Model of Python `int(str)` on a stripped string: optional sign followed by
digits; `none` models the `ValueError` the callers catch. -/
def parseInt (t : String) : Option Int :=
  match t.data with
  | '-' :: ds => (digitsToNat ds).map (fun n => -(n : Int))
  | '+' :: ds => (digitsToNat ds).map (fun n => (n : Int))
  | ds => (digitsToNat ds).map (fun n => (n : Int))

/-- The source's `int(cell or 0)` wrapped in `try/except` that coerces a
missing, empty or malformed cell to 0. -/
def cellInt (s : String) : Int :=
  match parseInt (pyStrip s) with
  | some n => n
  | none => 0

/-- The status test `(row.get("status","").strip().lower() or "") == "pending"`
used by `get_next_pending_submission` and `get_pending_count` (helpers.py). -/
def isPending (r : SubmissionRow) : Bool :=
  pyLower (pyStrip r.status) == "pending"

/-- The status test `... == "approved"` used (negated, as a `continue`) by
`get_approved_submissions_by_team` (helpers.py). -/
def isApproved (r : SubmissionRow) : Bool :=
  pyLower (pyStrip r.status) == "approved"

/-- helpers.py `get_submission_by_id`: first row whose stripped
`submission_id` cell equals the requested id. -/
def get_submission_by_id (subs : List SubmissionRow) (submission_id : String) :
    Option SubmissionRow :=
  subs.find? (fun r => pyStrip r.submission_id == submission_id)

/-- helpers.py `get_next_pending_submission`: first PENDING row in sheet
(append) order. -/
def get_next_pending_submission (subs : List SubmissionRow) : Option SubmissionRow :=
  subs.find? isPending

/-- helpers.py `get_pending_count`. -/
def get_pending_count (subs : List SubmissionRow) : Nat :=
  (subs.filter isPending).length

/-- The cell writes `update_submission_status` performs on the matched row:
H := status, K := reviewed_by, and, when supplied, I := str(challenge_key)
and J := str(points). -/
def applyUpdate (r : SubmissionRow) (status reviewed_by : String)
    (challenge_key : Option String) (points : Option Int) : SubmissionRow :=
  let r1 := { r with status := status, reviewed_by := reviewed_by }
  let r2 := match challenge_key with
    | some ck => { r1 with challenge_key := ck }
    | none => r1
  match points with
  | some p => { r2 with points := toString p }
  | none => r2

/-- helpers.py `update_submission_status`: scan the data rows in order for the
first row whose raw first cell (`row[0]`, no stripping) equals the id; write
the status/reviewer (and optional challenge-key/points) cells of that row and
return True, or return False with the sheet untouched when no row matches. -/
def update_submission_status (subs : List SubmissionRow)
    (submission_id status reviewed_by : String)
    (challenge_key : Option String) (points : Option Int) :
    Bool × List SubmissionRow :=
  match subs with
  | [] => (false, [])
  | r :: rest =>
    if r.submission_id == submission_id then
      (true, applyUpdate r status reviewed_by challenge_key points :: rest)
    else
      let res := update_submission_status rest submission_id status reviewed_by
        challenge_key points
      (res.1, r :: res.2)

/-- The Data Store effects of `review_accept_callback`
(review_modal_action.py, lines 211-231), after the modal state has been
parsed: sum base and extra points, look the submission up, compute the
`already_approved` guard, update the row unconditionally, and append a ledger
entry only when the guard was false.  Returns (submissions, ledger). -/
def review_accept_core (subs : List SubmissionRow) (ledger : List LedgerEntry)
    (submission_id challenge_key : String) (base extra : Int)
    (reviewer_name now : String) : List SubmissionRow × List LedgerEntry :=
  let points := base + extra
  match get_submission_by_id subs submission_id with
  | none => (subs, ledger)
  | some submission =>
    let already_approved := pyLower (pyStrip submission.status) == "approved"
    let team := pyStrip submission.team
    let res := update_submission_status subs submission_id ("APPROVED") reviewer_name
      (some challenge_key) (some points)
    let ledger' :=
      if !already_approved then
        ledger ++ [⟨now, team, points, challenge_key, submission_id, reviewer_name⟩]
      else ledger
    (res.2, ledger')

/-- The Data Store effects of `approve_submission_callback`
(approve_action.py, lines 38-63): look the submission up; read team,
challenge key and coerced points from the stored record; update the status;
append a ledger entry whenever the status update returned True — there is no
already-approved check on this path. -/
def approve_core (subs : List SubmissionRow) (ledger : List LedgerEntry)
    (submission_id reviewer_name now : String) :
    List SubmissionRow × List LedgerEntry :=
  match get_submission_by_id subs submission_id with
  | none => (subs, ledger)
  | some submission =>
    let team := pyStrip submission.team
    let challenge_key := pyStrip submission.challenge_key
    let points := cellInt submission.points
    let res := update_submission_status subs submission_id ("APPROVED") reviewer_name
      none none
    if res.1 then
      (res.2, ledger ++ [⟨now, team, points, challenge_key, submission_id, reviewer_name⟩])
    else
      (res.2, ledger)

/-- helpers.py `get_approved_submissions_by_team`, looked up at one team:
rows with status APPROVED (case-insensitive) whose stripped team cell is the
(nonempty) group key; `dict.get(team, [])` yields `[]` for the empty name,
which is never a group key. -/
def get_approved_submissions_by_team_for (subs : List SubmissionRow)
    (team : String) : List SubmissionRow :=
  if team = "" then []
  else subs.filter (fun r => isApproved r && pyStrip r.team == team)

/-- The `completed_keys` set of `get_unclaimed_challenge_keys_for_team`
(helpers.py): stripped, nonempty challenge keys of the team's approved
submissions. -/
def completedKeysFor (subs : List SubmissionRow) (team : String) : Finset String :=
  (((get_approved_submissions_by_team_for subs team).map
      (fun r => pyStrip r.challenge_key)).filter (fun k => k ≠ "")).toFinset

/-- The `all_keys` set of helpers.py: stripped, nonempty challenge keys of the
catalog. -/
def catalogKeys (chs : List ChallengeRow) : Finset String :=
  ((chs.map (fun c => pyStrip c.challenge_key)).filter (fun k => k ≠ "")).toFinset

/-- helpers.py `get_unclaimed_challenge_keys_for_team`:
`all_keys - completed_keys`. -/
def get_unclaimed_challenge_keys_for_team (chs : List ChallengeRow)
    (subs : List SubmissionRow) (team : String) : Finset String :=
  catalogKeys chs \ completedKeysFor subs team

/-- The `points_to_challenges[pts]` set built by `get_challenges_left_by_team`
(helpers.py): stripped nonempty catalog keys whose coerced points cell equals
`v`. -/
def catalogKeysAt (chs : List ChallengeRow) (v : Int) : Finset String :=
  (((chs.filter (fun c => cellInt c.points == v)).map
      (fun c => pyStrip c.challenge_key)).filter (fun k => k ≠ "")).toFinset

/-- The `completed_by_points[pts]` set of `get_challenges_left_by_team`
(helpers.py): stripped nonempty keys of the team's approved submissions whose
own coerced points cell equals `v`. -/
def completedKeysAtFor (subs : List SubmissionRow) (team : String) (v : Int) :
    Finset String :=
  (((get_approved_submissions_by_team_for subs team).filter
      (fun r => cellInt r.points == v)).map (fun r => pyStrip r.challenge_key)
    |>.filter (fun k => k ≠ "")).toFinset

/-- The per-team loop body of `get_challenges_left_by_team` (helpers.py):
`result[team][pts] = len(keys) - len(keys & completed)`. -/
def get_challenges_left_for (chs : List ChallengeRow) (subs : List SubmissionRow)
    (team : String) (v : Int) : Nat :=
  (catalogKeysAt chs v).card - ((catalogKeysAt chs v) ∩ completedKeysAtFor subs team v).card

/-- Written from the claim wording, for comparison with the source: the
catalog keys at point value `v` that appear among the team's approved
submissions (with no per-submission point filter). -/
def claimApprovedCatalogKeysAt (chs : List ChallengeRow) (subs : List SubmissionRow)
    (team : String) (v : Int) : Finset String :=
  catalogKeysAt chs v ∩ completedKeysFor subs team

/-- Parse a plain decimal literal (optional sign, digits, optional dot):
`some (neg, n, fl)` denotes the value `(-1)^neg * n / 10^fl`.  This is the
fragment of Python `float(...)` that Slack timestamp strings use; exotic
float syntax (exponents, inf/nan) is out of the modelled grammar and is
treated as a parse failure. -/
def parseDecimal (s : String) : Option (Bool × Nat × Nat) :=
  let go : List Char → Option (Nat × Nat) := fun cs =>
    let ip := cs.takeWhile (fun c => c ≠ '.')
    let rest := cs.dropWhile (fun c => c ≠ '.')
    match rest with
    | [] => (digitsToNat ip).map (fun n => (n, 0))
    | _ :: fp =>
      if fp.contains '.' then none
      else if ip = [] ∧ fp = [] then none
      else if ip.all Char.isDigit ∧ fp.all Char.isDigit then
        some ((ip ++ fp).foldl (fun a c => a * 10 + (c.toNat - 48)) 0, fp.length)
      else none
  match s.data with
  | '-' :: rest => (go rest).map (fun p => (true, p))
  | '+' :: rest => (go rest).map (fun p => (false, p))
  | cs => (go cs).map (fun p => (false, p))

/-- Round `a / b` to the nearest integer, ties to even — the rounding of
`format(x, ".6f")`.  (Python rounds the binary double; for the at-most-
six-fraction-digit strings Slack produces the two agree exactly, since no
rounding occurs at all.) -/
def roundHalfEven (a b : Nat) : Nat :=
  let q := a / b
  let r := a % b
  if 2 * r < b then q else if b < 2 * r then q + 1 else if q % 2 = 0 then q else q + 1

/-- Left-pad a numeral with zeros to the given width. -/
def padZeros (s : String) (w : Nat) : String :=
  ⟨List.replicate (w - s.data.length) '0' ++ s.data⟩

/-- Python `f"{f:.6f}"` on the parsed decimal value. -/
def format6 (neg : Bool) (n fl : Nat) : String :=
  let m := roundHalfEven (n * 1000000) (10 ^ fl)
  (if neg then ("-") else ("")) ++ toString (m / 1000000) ++ "." ++ padZeros (toString (m % 1000000)) 6

/-- helpers.py `_to_slack_ts` on a string value (callers map `None` to `none`
before the call): strip; empty gives `None`; a float literal is reformatted
to six decimal places; anything else is returned unchanged. -/
def _to_slack_ts (val : String) : Option String :=
  let s := pyStrip val
  if s = "" then none
  else
    match parseDecimal s with
    | some (neg, n, fl) => some (format6 neg n fl)
    | none => some s

/-- helpers.py `get_queue_ref` over the QueueRef sheet's `get_all_values`
rows: require a second row with two cells whose stripped values are both
nonempty. -/
def get_queue_ref (vals : List (List String)) : Option (String × String) :=
  match vals[1]? with
  | none => none
  | some row =>
    match row[0]?, row[1]? with
    | some a, some b =>
      let ts := pyStrip a
      let ch := pyStrip b
      if ts ≠ "" && ch ≠ "" then some (ts, ch) else none
    | _, _ => none

/-- Write one cell of a sheet row, creating empty cells up to the index the
way a spreadsheet `update_acell` does. -/
def setCell (row : List String) (i : Nat) (v : String) : List String :=
  (row ++ List.replicate (i + 1 - row.length) "").set i v

/-- helpers.py `set_queue_ref`: create the header+data rows when the sheet is
short, otherwise write cells A2 and B2 in place. -/
def set_queue_ref (vals : List (List String)) (message_ts channel_id : String) :
    List (List String) :=
  if vals.length < 2 then
    [["message_ts", "channel_id"], [message_ts, channel_id]]
  else
    vals.set 1 (setCell (setCell (vals[1]?.getD []) 0 message_ts) 1 channel_id)

/-- The Messaging Gateway as seen by `update_queue_message`: whether
`chat_update` succeeds, and the outcome of `chat_postMessage` (`none` models
a raised exception, `some ts?` a response whose `ts` field may be absent). -/
structure Gateway where
  chat_update_ok : Bool
  chat_post : Option (Option String)
  deriving DecidableEq, Repr

/-- Observable outcome of one `update_queue_message` call: the returned
(message_ts, channel_id) pair, the QueueRef sheet afterwards, and the
`chat_postMessage` / `chat_update` calls issued (channel paired with text or
timestamp). -/
structure UQMResult where
  ref1 : Option String
  ref2 : Option String
  queueVals : List (List String)
  posts : List (String × String)
  updates : List (String × String)
  deriving DecidableEq, Repr

/-- helpers.py `update_queue_message`.  With a stored reference and
`force_new` false it attempts `chat_update` and returns the (normalized)
stored reference whether or not the call raised; membership of the update
attempt is recorded in `updates`.  With `force_new` true it posts a fresh
message and persists the response timestamp; a raised post is swallowed by
the outer `except`, which returns `(None, None)`.  Otherwise it falls through
to `(msg_ts and _to_slack_ts(msg_ts), ch_str or None)` with no gateway
call. -/
def update_queue_message (gw : Gateway) (queueVals : List (List String))
    (subs : List SubmissionRow) (review_channel_id : String) (force_new : Bool) :
    UQMResult :=
  let count := get_pending_count subs
  let text := "Review queue: " ++ toString count ++ " pending"
  let ref := get_queue_ref queueVals
  let ch_str : String := match ref with
    | some (_, c) => pyStrip c
    | none => ""
  let ts_str : Option String := match ref with
    | some (t, _) => _to_slack_ts t
    | none => none
  let fall : List (String × String) → UQMResult := fun posts =>
    ⟨ts_str, if ch_str = "" then none else some ch_str, queueVals, posts, []⟩
  let forcedBranch : UQMResult :=
    if force_new then
      match gw.chat_post with
      | none => ⟨none, none, queueVals, [(review_channel_id, text)], []⟩
      | some respTs =>
        let ts_new : Option String := match respTs with
          | some v => _to_slack_ts v
          | none => none
        match ts_new with
        | some t =>
          ⟨some t, some review_channel_id,
            set_queue_ref queueVals t review_channel_id,
            [(review_channel_id, text)], []⟩
        | none => fall [(review_channel_id, text)]
    else fall []
  match ts_str with
  | some ts =>
    if ch_str ≠ "" && !force_new then
      ⟨some ts, some ch_str, queueVals, [], [(ch_str, ts)]⟩
    else forcedBranch
  | none => forcedBranch

@[simp]
theorem applyUpdate_submission_id (r : SubmissionRow) (st rev : String)
    (ck : Option String) (pts : Option Int) :
    (applyUpdate r st rev ck pts).submission_id = r.submission_id := by
  cases ck <;> cases pts <;> rfl

@[simp]
theorem applyUpdate_status (r : SubmissionRow) (st rev : String)
    (ck : Option String) (pts : Option Int) :
    (applyUpdate r st rev ck pts).status = st := by
  cases ck <;> cases pts <;> rfl

@[simp]
theorem applyUpdate_team (r : SubmissionRow) (st rev : String)
    (ck : Option String) (pts : Option Int) :
    (applyUpdate r st rev ck pts).team = r.team := by
  cases ck <;> cases pts <;> rfl

@[simp]
theorem applyUpdate_timestamp (r : SubmissionRow) (st rev : String)
    (ck : Option String) (pts : Option Int) :
    (applyUpdate r st rev ck pts).timestamp = r.timestamp := by
  cases ck <;> cases pts <;> rfl

@[simp]
theorem applyUpdate_slack_user_id (r : SubmissionRow) (st rev : String)
    (ck : Option String) (pts : Option Int) :
    (applyUpdate r st rev ck pts).slack_user_id = r.slack_user_id := by
  cases ck <;> cases pts <;> rfl

@[simp]
theorem applyUpdate_member_text (r : SubmissionRow) (st rev : String)
    (ck : Option String) (pts : Option Int) :
    (applyUpdate r st rev ck pts).member_text = r.member_text := by
  cases ck <;> cases pts <;> rfl

@[simp]
theorem applyUpdate_message_url (r : SubmissionRow) (st rev : String)
    (ck : Option String) (pts : Option Int) :
    (applyUpdate r st rev ck pts).message_url = r.message_url := by
  cases ck <;> cases pts <;> rfl

@[simp]
theorem applyUpdate_photo_url (r : SubmissionRow) (st rev : String)
    (ck : Option String) (pts : Option Int) :
    (applyUpdate r st rev ck pts).photo_url = r.photo_url := by
  cases ck <;> cases pts <;> rfl

@[simp]
theorem applyUpdate_reviewed_by (r : SubmissionRow) (st rev : String)
    (ck : Option String) (pts : Option Int) :
    (applyUpdate r st rev ck pts).reviewed_by = rev := by
  cases ck <;> cases pts <;> rfl

@[simp]
theorem applyUpdate_challenge_key (r : SubmissionRow) (st rev : String)
    (ck : Option String) (pts : Option Int) :
    (applyUpdate r st rev ck pts).challenge_key = ck.getD r.challenge_key := by
  cases ck <;> cases pts <;> rfl

@[simp]
theorem applyUpdate_points (r : SubmissionRow) (st rev : String)
    (ck : Option String) (pts : Option Int) :
    (applyUpdate r st rev ck pts).points = (pts.map toString).getD r.points := by
  cases ck <;> cases pts <;> rfl

/-- On a sheet whose submission-id cells carry no surrounding whitespace, a
successful `get_submission_by_id` lookup guarantees that
`update_submission_status` succeeds, that it rewrites exactly the row the
lookup found, and that the id cells stay whitespace-free. -/
theorem update_after_find (k st rev : String) (ck : Option String) (pts : Option Int)
    (subs : List SubmissionRow) (r : SubmissionRow)
    (hids : ∀ s ∈ subs, pyStrip s.submission_id = s.submission_id)
    (hfind : get_submission_by_id subs k = some r) :
    (update_submission_status subs k st rev ck pts).1 = true ∧
    get_submission_by_id (update_submission_status subs k st rev ck pts).2 k
      = some (applyUpdate r st rev ck pts) ∧
    ∀ s ∈ (update_submission_status subs k st rev ck pts).2,
      pyStrip s.submission_id = s.submission_id := by
  induction subs with
  | nil => simp [get_submission_by_id] at hfind
  | cons r0 rest ih =>
    have hid0 : pyStrip r0.submission_id = r0.submission_id := hids r0 (by simp)
    cases hmatch : (pyStrip r0.submission_id == k) with
    | true =>
      have hr : r = r0 := by
        simp [get_submission_by_id, List.find?_cons, hmatch] at hfind
        exact hfind.symm
      subst hr
      have hraw : (r.submission_id == k) = true := by rw [← hid0]; exact hmatch
      refine ⟨?_, ?_, ?_⟩
      · simp [update_submission_status, hraw]
      · simp only [update_submission_status, hraw, if_true]
        simp only [get_submission_by_id, List.find?_cons, applyUpdate_submission_id, hid0]
        rw [hraw]
      · intro s hs
        simp only [update_submission_status, hraw, if_true] at hs
        rcases List.mem_cons.mp hs with h | h
        · subst h; simp [hid0]
        · exact hids s (List.mem_cons_of_mem _ h)
    | false =>
      have hrest : get_submission_by_id rest k = some r := by
        simpa [get_submission_by_id, List.find?_cons, hmatch] using hfind
      have hidsrest : ∀ s ∈ rest, pyStrip s.submission_id = s.submission_id :=
        fun s hs => hids s (List.mem_cons_of_mem _ hs)
      have hraw : (r0.submission_id == k) = false := by rw [← hid0]; exact hmatch
      obtain ⟨ih1, ih2, ih3⟩ := ih hidsrest hrest
      refine ⟨?_, ?_, ?_⟩
      · simp [update_submission_status, hraw, ih1]
      · simp only [update_submission_status, hraw, Bool.false_eq_true, if_false]
        simp [get_submission_by_id, List.find?_cons, hmatch] at ih2 ⊢
        exact ih2
      · intro s hs
        simp only [update_submission_status, hraw, Bool.false_eq_true, if_false] at hs
        rcases List.mem_cons.mp hs with h | h
        · subst h; exact hid0
        · exact ih3 s h

/-- C1 (amended): on a sheet whose submission-key cells carry no surrounding
whitespace, invoking the modal Accept transition twice in succession with
identical inputs on the same submission key, the first invocation finding the
submission PENDING, appends exactly one ledger entry: the second invocation
reads status APPROVED, so its already-approved guard suppresses the second
append. -/
theorem accept_twice_single_award
    (subs : List SubmissionRow) (ledger : List LedgerEntry)
    (k ck : String) (base extra : Int) (rev now1 now2 : String) (r : SubmissionRow)
    (hids : ∀ s ∈ subs, pyStrip s.submission_id = s.submission_id)
    (hfind : get_submission_by_id subs k = some r)
    (hpend : pyLower (pyStrip r.status) = "pending") :
    (get_submission_by_id
        (review_accept_core subs ledger k ck base extra rev now1).1 k).map
        SubmissionRow.status = some ("APPROVED") ∧
    (review_accept_core
        (review_accept_core subs ledger k ck base extra rev now1).1
        (review_accept_core subs ledger k ck base extra rev now1).2
        k ck base extra rev now2).2
      = ledger ++ [⟨now1, pyStrip r.team, base + extra, ck, k, rev⟩] := by
  obtain ⟨hu1, hu2, hu3⟩ :=
    update_after_find k ("APPROVED") rev (some ck) (some (base + extra)) subs r hids hfind
  have hnot : (pyLower (pyStrip r.status) == "approved") = false := by
    rw [hpend]; rfl
  have hstep1 : review_accept_core subs ledger k ck base extra rev now1
      = ((update_submission_status subs k ("APPROVED") rev (some ck) (some (base + extra))).2,
         ledger ++ [⟨now1, pyStrip r.team, base + extra, ck, k, rev⟩]) := by
    simp [review_accept_core, hfind, hnot]
  have happrstr : (pyLower (pyStrip ("APPROVED")) == "approved") = true := rfl
  constructor
  · rw [hstep1]
    rw [hu2]
    simp
  · rw [hstep1]
    simp only [review_accept_core, hu2, applyUpdate_status, happrstr,
      Bool.not_true, if_false, Bool.false_eq_true]

/-- C1 counterexample: with the submission key stored as `" SUB-1 "` (padded
with whitespace) the lookup still finds the PENDING row, but the exact-match
status update silently misses it, so a second identical Accept appends a
second ledger entry. -/
theorem accept_twice_padded_double_award :
    (get_submission_by_id
        [⟨" SUB-1 ", "t0", "U1", "Red", "d", "u", "", "PENDING", "C", "5", ""⟩]
        "SUB-1").map SubmissionRow.status = some ("PENDING") ∧
    (review_accept_core
        (review_accept_core
          [⟨" SUB-1 ", "t0", "U1", "Red", "d", "u", "", "PENDING", "C", "5", ""⟩]
          [] "SUB-1" "C" 5 0 "R" "t1").1
        (review_accept_core
          [⟨" SUB-1 ", "t0", "U1", "Red", "d", "u", "", "PENDING", "C", "5", ""⟩]
          [] "SUB-1" "C" 5 0 "R" "t1").2
        "SUB-1" "C" 5 0 "R" "t2").2.length = 2 := by
  constructor
  · rfl
  · rfl

/-- C1 witness: a concrete two-fold Accept on a clean one-row sheet, through
`accept_twice_single_award`. -/
theorem accept_twice_single_award_witness :
    (get_submission_by_id
        (review_accept_core
          [⟨"SUB-7", "t0", "U1", "Red", "d", "u", "", "PENDING", "", "0", ""⟩]
          [] "SUB-7" "SOC-001" 5 0 "R" "t1").1 "SUB-7").map
        SubmissionRow.status = some ("APPROVED") ∧
    (review_accept_core
        (review_accept_core
          [⟨"SUB-7", "t0", "U1", "Red", "d", "u", "", "PENDING", "", "0", ""⟩]
          [] "SUB-7" "SOC-001" 5 0 "R" "t1").1
        (review_accept_core
          [⟨"SUB-7", "t0", "U1", "Red", "d", "u", "", "PENDING", "", "0", ""⟩]
          [] "SUB-7" "SOC-001" 5 0 "R" "t1").2
        "SUB-7" "SOC-001" 5 0 "R" "t2").2
      = [⟨"t1", "Red", 5, "SOC-001", "SUB-7", "R"⟩] :=
  accept_twice_single_award
    [⟨"SUB-7", "t0", "U1", "Red", "d", "u", "", "PENDING", "", "0", ""⟩]
    [] "SUB-7" "SOC-001" 5 0 "R" "t1" "t2"
    ⟨"SUB-7", "t0", "U1", "Red", "d", "u", "", "PENDING", "", "0", ""⟩
    (by decide) (by rfl) (by rfl)

/-- C4: in the modal Accept path, whenever the submission record exists with
a status other than APPROVED, a ledger entry is appended; the boolean
returned by the status update never enters the decision. -/
theorem accept_appends_without_checking_update
    (subs : List SubmissionRow) (ledger : List LedgerEntry)
    (k ck : String) (base extra : Int) (rev now : String) (r : SubmissionRow)
    (hfind : get_submission_by_id subs k = some r)
    (hnotappr : pyLower (pyStrip r.status) ≠ "approved") :
    (review_accept_core subs ledger k ck base extra rev now).2
      = ledger ++ [⟨now, pyStrip r.team, base + extra, ck, k, rev⟩] := by
  have hnot : (pyLower (pyStrip r.status) == "approved") = false := by
    cases h : (pyLower (pyStrip r.status) == "approved")
    · rfl
    · exact absurd (eq_of_beq h) hnotappr
  simp [review_accept_core, hfind, hnot]

/-- C4 witness: on the whitespace-padded row the status update returns False
(cell `" SUB-1 "` is not an exact match for `"SUB-1"`), yet the Accept path
still appends the ledger entry, via
`accept_appends_without_checking_update`. -/
theorem accept_appends_without_checking_update_witness :
    (update_submission_status
        [⟨" SUB-1 ", "t0", "U1", "Red", "d", "u", "", "PENDING", "C", "5", ""⟩]
        "SUB-1" "APPROVED" "R" (some ("C")) (some 5)).1 = false ∧
    (review_accept_core
        [⟨" SUB-1 ", "t0", "U1", "Red", "d", "u", "", "PENDING", "C", "5", ""⟩]
        [] "SUB-1" "C" 5 0 "R" "t1").2
      = [⟨"t1", "Red", 5, "C", "SUB-1", "R"⟩] :=
  ⟨by decide,
   accept_appends_without_checking_update
    [⟨" SUB-1 ", "t0", "U1", "Red", "d", "u", "", "PENDING", "C", "5", ""⟩]
    [] "SUB-1" "C" 5 0 "R" "t1"
    ⟨" SUB-1 ", "t0", "U1", "Red", "d", "u", "", "PENDING", "C", "5", ""⟩
    (by rfl) (by decide)⟩

/-- C7 (Scenario B): accepting PENDING submission SUB-100 with challenge
SOC-001, base points 5 and bonus 2 leaves the record APPROVED with points 7
and appends exactly one ledger entry with delta 7. -/
theorem accept_scenario_b :
    review_accept_core
        [⟨"SUB-100", "t0", "U1", "Red", "desc", "url", "", "PENDING", "", "0", ""⟩]
        [] "SUB-100" "SOC-001" 5 2 "Rev" "t1"
      = ([⟨"SUB-100", "t0", "U1", "Red", "desc", "url", "", "APPROVED", "SOC-001", "7", "Rev"⟩],
         [⟨"t1", "Red", 7, "SOC-001", "SUB-100", "Rev"⟩]) := by
  rfl

theorem find?_first_split {α : Type} (p : α → Bool) :
    ∀ (l : List α) (a : α), l.find? p = some a →
      p a = true ∧ ∃ pre post, l = pre ++ a :: post ∧ ∀ x ∈ pre, p x = false := by
  intro l
  induction l with
  | nil => intro a h; simp at h
  | cons b t ih =>
    intro a h
    cases hp : p b
    · rw [List.find?_cons, hp] at h
      obtain ⟨ha, pre, post, heq, hall⟩ := ih a h
      exact ⟨ha, b :: pre, post, by rw [heq]; rfl, by
        intro x hx
        rcases List.mem_cons.mp hx with h' | h'
        · subst h'; exact hp
        · exact hall x h'⟩
    · rw [List.find?_cons, hp] at h
      cases h
      exact ⟨hp, [], t, rfl, by simp⟩

/-- C8: `get_next_pending_submission` returns the oldest PENDING row in sheet
(append) order — it is `none` exactly when no row is PENDING, and when it
returns a row, that row is PENDING and every row stored before it is not. -/
theorem next_pending_fifo (subs : List SubmissionRow) :
    (get_next_pending_submission subs = none ↔ ∀ r ∈ subs, isPending r = false) ∧
    ∀ r, get_next_pending_submission subs = some r →
      isPending r = true ∧
      ∃ pre post, subs = pre ++ r :: post ∧ ∀ x ∈ pre, isPending x = false := by
  constructor
  · constructor
    · intro h r hr
      have := List.find?_eq_none.mp h r hr
      simpa using this
    · intro h
      exact List.find?_eq_none.mpr (fun x hx => by simp [h x hx])
  · intro r h
    exact find?_first_split isPending subs r h

/-- C8 witness: on a sheet with S1, S2, S3 appended in that order and all
PENDING, the claim theorem instantiates to S1 being returned first, via
`next_pending_fifo`. -/
theorem next_pending_fifo_witness :
    isPending ⟨"S1", "t1", "U", "A", "d", "u", "", "PENDING", "", "0", ""⟩ = true ∧
    ∃ pre post,
      [(⟨"S1", "t1", "U", "A", "d", "u", "", "PENDING", "", "0", ""⟩ : SubmissionRow),
       ⟨"S2", "t2", "U", "A", "d", "u", "", "PENDING", "", "0", ""⟩,
       ⟨"S3", "t3", "U", "A", "d", "u", "", "PENDING", "", "0", ""⟩]
        = pre ++ ⟨"S1", "t1", "U", "A", "d", "u", "", "PENDING", "", "0", ""⟩ :: post ∧
      ∀ x ∈ pre, isPending x = false :=
  (next_pending_fifo
    [⟨"S1", "t1", "U", "A", "d", "u", "", "PENDING", "", "0", ""⟩,
     ⟨"S2", "t2", "U", "A", "d", "u", "", "PENDING", "", "0", ""⟩,
     ⟨"S3", "t3", "U", "A", "d", "u", "", "PENDING", "", "0", ""⟩]).2
    ⟨"S1", "t1", "U", "A", "d", "u", "", "PENDING", "", "0", ""⟩ (by rfl)

theorem applyUpdate_eq (r : SubmissionRow) (st rev : String) (ck : Option String)
    (pts : Option Int) :
    applyUpdate r st rev ck pts
      = { r with
          status := st
          reviewed_by := rev
          challenge_key := ck.getD r.challenge_key
          points := (pts.map toString).getD r.points } := by
  cases ck <;> cases pts <;> rfl

theorem update_no_match (k st rev : String) (ck : Option String) (pts : Option Int) :
    ∀ subs : List SubmissionRow, (∀ r ∈ subs, r.submission_id ≠ k) →
      update_submission_status subs k st rev ck pts = (false, subs) := by
  intro subs
  induction subs with
  | nil => intro _; rfl
  | cons r0 rest ih =>
    intro h
    have h0 : (r0.submission_id == k) = false := by simp [h r0 (by simp)]
    simp [update_submission_status, h0,
      ih (fun r hr => h r (List.mem_cons_of_mem _ hr))]

theorem update_first_match (k st rev : String) (ck : Option String) (pts : Option Int) :
    ∀ (pre : List SubmissionRow) (r : SubmissionRow) (post : List SubmissionRow),
      (∀ x ∈ pre, x.submission_id ≠ k) → r.submission_id = k →
      update_submission_status (pre ++ r :: post) k st rev ck pts
        = (true, pre ++ applyUpdate r st rev ck pts :: post) := by
  intro pre
  induction pre with
  | nil =>
    intro r post _ hr
    have hb : (r.submission_id == k) = true := by simp [hr]
    simp [update_submission_status, hb]
  | cons a pre' ih =>
    intro r post hpre hr
    have ha : (a.submission_id == k) = false := by simp [hpre a (by simp)]
    simp only [List.cons_append, update_submission_status, ha, Bool.false_eq_true,
      if_false, List.append_eq]
    rw [ih r post (fun x hx => hpre x (by simp [hx])) hr]

/-- C9: when no data row's raw key cell equals the requested key the status
update returns False and leaves every row unchanged; when one does, the first
such row has exactly its status, reviewer, and (when supplied) challenge-key
and points cells rewritten, every other field and every other row staying as
it was. -/
theorem update_submission_status_targeted (subs : List SubmissionRow)
    (k st rev : String) (ck : Option String) (pts : Option Int) :
    ((∀ r ∈ subs, r.submission_id ≠ k) →
      update_submission_status subs k st rev ck pts = (false, subs)) ∧
    (∀ pre r post, subs = pre ++ r :: post →
      (∀ x ∈ pre, x.submission_id ≠ k) → r.submission_id = k →
      update_submission_status subs k st rev ck pts
        = (true, pre ++
            { r with
              status := st
              reviewed_by := rev
              challenge_key := ck.getD r.challenge_key
              points := (pts.map toString).getD r.points } :: post)) := by
  constructor
  · exact update_no_match k st rev ck pts subs
  · intro pre r post heq hpre hr
    subst heq
    rw [update_first_match k st rev ck pts pre r post hpre hr, applyUpdate_eq]

/-- C9 witness: on a two-row sheet, updating key `"B"` rewrites only row B's
status/reviewer/challenge-key/points cells, and updating the absent key `"C"`
returns False with the sheet unchanged, via
`update_submission_status_targeted`. -/
theorem update_submission_status_targeted_witness :
    update_submission_status
        [⟨"A", "tA", "UA", "T1", "dA", "uA", "pA", "PENDING", "KA", "1", "rA"⟩,
         ⟨"B", "tB", "UB", "T2", "dB", "uB", "pB", "PENDING", "KB", "2", "rB"⟩]
        "B" "APPROVED" "Rev" (some ("SOC-001")) (some 7)
      = (true,
         [⟨"A", "tA", "UA", "T1", "dA", "uA", "pA", "PENDING", "KA", "1", "rA"⟩,
          ⟨"B", "tB", "UB", "T2", "dB", "uB", "pB", "APPROVED", "SOC-001", "7", "Rev"⟩]) ∧
    update_submission_status
        [⟨"A", "tA", "UA", "T1", "dA", "uA", "pA", "PENDING", "KA", "1", "rA"⟩,
         ⟨"B", "tB", "UB", "T2", "dB", "uB", "pB", "PENDING", "KB", "2", "rB"⟩]
        "C" "APPROVED" "Rev" none none
      = (false,
         [⟨"A", "tA", "UA", "T1", "dA", "uA", "pA", "PENDING", "KA", "1", "rA"⟩,
          ⟨"B", "tB", "UB", "T2", "dB", "uB", "pB", "PENDING", "KB", "2", "rB"⟩]) :=
  ⟨(update_submission_status_targeted
      [⟨"A", "tA", "UA", "T1", "dA", "uA", "pA", "PENDING", "KA", "1", "rA"⟩,
       ⟨"B", "tB", "UB", "T2", "dB", "uB", "pB", "PENDING", "KB", "2", "rB"⟩]
      "B" "APPROVED" "Rev" (some ("SOC-001")) (some 7)).2
    [⟨"A", "tA", "UA", "T1", "dA", "uA", "pA", "PENDING", "KA", "1", "rA"⟩]
    ⟨"B", "tB", "UB", "T2", "dB", "uB", "pB", "PENDING", "KB", "2", "rB"⟩
    [] (by rfl) (by decide) (by rfl),
   (update_submission_status_targeted
      [⟨"A", "tA", "UA", "T1", "dA", "uA", "pA", "PENDING", "KA", "1", "rA"⟩,
       ⟨"B", "tB", "UB", "T2", "dB", "uB", "pB", "PENDING", "KB", "2", "rB"⟩]
      "C" "APPROVED" "Rev" none none).1 (by decide)⟩

/-- C10: the standalone approve-button handler awards on every successful
invocation with no already-approved check: on a sheet with whitespace-free
key cells, two successive invocations on the same existing submission append
two ledger entries, both carrying the points and challenge key stored on the
record. -/
theorem approve_button_double_award
    (subs : List SubmissionRow) (ledger : List LedgerEntry)
    (k rev now1 now2 : String) (r : SubmissionRow)
    (hids : ∀ s ∈ subs, pyStrip s.submission_id = s.submission_id)
    (hfind : get_submission_by_id subs k = some r) :
    (approve_core
        (approve_core subs ledger k rev now1).1
        (approve_core subs ledger k rev now1).2 k rev now2).2
      = ledger ++
          [⟨now1, pyStrip r.team, cellInt r.points, pyStrip r.challenge_key, k, rev⟩,
           ⟨now2, pyStrip r.team, cellInt r.points, pyStrip r.challenge_key, k, rev⟩] := by
  obtain ⟨hu1, hu2, hu3⟩ := update_after_find k ("APPROVED") rev none none subs r hids hfind
  have hstep1 : approve_core subs ledger k rev now1
      = ((update_submission_status subs k ("APPROVED") rev none none).2,
         ledger ++ [⟨now1, pyStrip r.team, cellInt r.points, pyStrip r.challenge_key, k, rev⟩]) := by
    simp [approve_core, hfind, hu1]
  obtain ⟨hv1, hv2, hv3⟩ :=
    update_after_find k ("APPROVED") rev none none
      (update_submission_status subs k ("APPROVED") rev none none).2
      (applyUpdate r ("APPROVED") rev none none) hu3 hu2
  rw [hstep1]
  simp [approve_core, hu2, hv1, List.append_assoc]

/-- C10 witness: two approve-button clicks on the same stored submission
append two identical-delta ledger entries, via
`approve_button_double_award`. -/
theorem approve_button_double_award_witness :
    (approve_core
        (approve_core
          [⟨"SUB-9", "t0", "U1", "Blue", "d", "u", "", "PENDING", "SOC-002", "4", ""⟩]
          [] "SUB-9" "R" "t1").1
        (approve_core
          [⟨"SUB-9", "t0", "U1", "Blue", "d", "u", "", "PENDING", "SOC-002", "4", ""⟩]
          [] "SUB-9" "R" "t1").2 "SUB-9" "R" "t2").2
      = [⟨"t1", "Blue", 4, "SOC-002", "SUB-9", "R"⟩,
         ⟨"t2", "Blue", 4, "SOC-002", "SUB-9", "R"⟩] :=
  approve_button_double_award
    [⟨"SUB-9", "t0", "U1", "Blue", "d", "u", "", "PENDING", "SOC-002", "4", ""⟩]
    [] "SUB-9" "R" "t1" "t2"
    ⟨"SUB-9", "t0", "U1", "Blue", "d", "u", "", "PENDING", "SOC-002", "4", ""⟩
    (by decide) (by rfl)

/-- C3 (amended): for every team and point value, the remaining count plus
the number of catalog keys at that value completed by the team *at that
recorded point value* equals the number of catalog keys at that value — the
source intersects with the keys of approved submissions whose own points cell
coerces to `v`, not with all of the team's approved keys. -/
theorem remaining_count_conservation (chs : List ChallengeRow)
    (subs : List SubmissionRow) (team : String) (v : Int) :
    get_challenges_left_for chs subs team v
      + ((catalogKeysAt chs v) ∩ completedKeysAtFor subs team v).card
      = (catalogKeysAt chs v).card :=
  Nat.sub_add_cancel (Finset.card_le_card Finset.inter_subset_left)

/-- C3 counterexample: the catalog prices `K` at 5 points, but the team's
approved submission for `K` recorded 7 points (base plus bonus), so the key
is not counted as completed at value 5: the remaining count stays 1 and the
claimed equation `remaining + |catalogKeysAt v ∩ approvedKeys| = |catalogKeysAt v|`
reads 1 + 1 = 1. -/
theorem remaining_count_claim_false :
    get_challenges_left_for [⟨"K", "n", "5", "0"⟩]
        [⟨"s1", "t", "u", "T", "d", "m", "p", "approved", "K", "7", ""⟩] "T" 5
      + (claimApprovedCatalogKeysAt [⟨"K", "n", "5", "0"⟩]
          [⟨"s1", "t", "u", "T", "d", "m", "p", "approved", "K", "7", ""⟩] "T" 5).card
      ≠ (catalogKeysAt [⟨"K", "n", "5", "0"⟩] 5).card := by
  decide

/-- C6 (amended): the team's unclaimed key set and approved key set are
always disjoint, and their union is the catalog keys joined with the approved
keys — which collapses to exactly the catalog keys precisely when every
approved key still occurs in the catalog. -/
theorem unclaimed_complement (chs : List ChallengeRow) (subs : List SubmissionRow)
    (team : String) :
    Disjoint (get_unclaimed_challenge_keys_for_team chs subs team)
      (completedKeysFor subs team) ∧
    get_unclaimed_challenge_keys_for_team chs subs team ∪ completedKeysFor subs team
      = catalogKeys chs ∪ completedKeysFor subs team ∧
    (completedKeysFor subs team ⊆ catalogKeys chs →
      get_unclaimed_challenge_keys_for_team chs subs team ∪ completedKeysFor subs team
        = catalogKeys chs) := by
  refine ⟨Finset.sdiff_disjoint, Finset.sdiff_union_self_eq_union, ?_⟩
  intro h
  rw [get_unclaimed_challenge_keys_for_team, Finset.sdiff_union_self_eq_union,
    Finset.union_eq_left.mpr h]

/-- C6 counterexample: team `T` has an approved submission for key `B` that
is absent from the catalog `{A}`; the union of unclaimed and approved keys is
`{A, B}`, not the catalog key set. -/
theorem unclaimed_complement_claim_false :
    get_unclaimed_challenge_keys_for_team [⟨"A", "n", "5", "0"⟩]
        [⟨"s1", "t", "u", "T", "d", "m", "p", "approved", "B", "5", ""⟩] "T"
      ∪ completedKeysFor
          [⟨"s1", "t", "u", "T", "d", "m", "p", "approved", "B", "5", ""⟩] "T"
      ≠ catalogKeys [⟨"A", "n", "5", "0"⟩] := by
  decide

/-- C6 witness: when every approved key is still in the catalog the union is
exactly the catalog key set, via `unclaimed_complement`. -/
theorem unclaimed_complement_witness :
    get_unclaimed_challenge_keys_for_team
        [⟨"A", "n", "5", "0"⟩, ⟨"B", "n2", "3", "0"⟩]
        [⟨"s1", "t", "u", "T", "d", "m", "p", "approved", "A", "5", ""⟩] "T"
      ∪ completedKeysFor
          [⟨"s1", "t", "u", "T", "d", "m", "p", "approved", "A", "5", ""⟩] "T"
      = catalogKeys [⟨"A", "n", "5", "0"⟩, ⟨"B", "n2", "3", "0"⟩] :=
  (unclaimed_complement [⟨"A", "n", "5", "0"⟩, ⟨"B", "n2", "3", "0"⟩]
      [⟨"s1", "t", "u", "T", "d", "m", "p", "approved", "A", "5", ""⟩] "T").2.2
    (by decide)

theorem get_queue_ref_strip (vals : List (List String)) (t c : String)
    (h : get_queue_ref vals = some (t, c)) :
    pyStrip t = t ∧ pyStrip c = c ∧ t ≠ "" ∧ c ≠ "" := by
  unfold get_queue_ref at h
  cases h1 : vals[1]? with
  | none => simp [h1] at h
  | some row =>
    simp only [h1] at h
    cases h2 : row[0]? with
    | none => simp [h2] at h
    | some a =>
      cases h3 : row[1]? with
      | none => simp [h2, h3] at h
      | some b =>
        simp only [h2, h3] at h
        by_cases hcond : pyStrip a ≠ "" ∧ pyStrip b ≠ ""
        · rw [if_pos (by simp [hcond.1, hcond.2])] at h
          injection h with h'
          injection h' with ha hb
          subst ha; subst hb
          exact ⟨pyStrip_idem a, pyStrip_idem b, hcond.1, hcond.2⟩
        · have hfalse : ¬ ((decide (pyStrip a ≠ "") && decide (pyStrip b ≠ "")) = true) := by
            intro hb
            simp only [Bool.and_eq_true, decide_eq_true_eq] at hb
            exact hcond hb
          rw [if_neg hfalse] at h
          cases h

theorem _to_slack_ts_isSome (t : String) (hstrip : pyStrip t = t) (hne : t ≠ "") :
    ∃ u, _to_slack_ts t = some u := by
  unfold _to_slack_ts
  rw [hstrip, if_neg hne]
  cases parseDecimal t with
  | none => exact ⟨t, rfl⟩
  | some p =>
    obtain ⟨neg, n, fl⟩ := p
    exact ⟨format6 neg n fl, rfl⟩

/-- C2 (amended): with `forceNew` false and no stored queue reference, the
reconciler posts nothing, leaves the stored reference record unchanged, and
returns (absent, absent); a brand-new summary message is posted and persisted
only on the `forceNew` path. -/
theorem queue_no_ref_no_post (gw : Gateway) (queueVals : List (List String))
    (subs : List SubmissionRow) (review_channel_id : String)
    (href : get_queue_ref queueVals = none) :
    update_queue_message gw queueVals subs review_channel_id false
      = ⟨none, none, queueVals, [], []⟩ := by
  simp [update_queue_message, href]

/-- C2 counterexample: a cleared reference row and `forceNew` false — the
reconciler issues no `chat_postMessage`, persists nothing, and returns
(absent, absent), not a fresh reference, even though a post would succeed. -/
theorem queue_no_ref_claim_false :
    update_queue_message ⟨true, some (some ("111.000000"))⟩
        [["message_ts", "channel_id"], ["", ""]] [] "CREV" false
      = ⟨none, none, [["message_ts", "channel_id"], ["", ""]], [], []⟩ := by
  rfl

/-- C2 witness: the amended claim at a one-row (header-only) reference sheet,
via `queue_no_ref_no_post`. -/
theorem queue_no_ref_no_post_witness :
    update_queue_message ⟨true, some (some ("222.000000"))⟩
        [["message_ts", "channel_id"]] [] "CREV2" false
      = ⟨none, none, [["message_ts", "channel_id"]], [], []⟩ :=
  queue_no_ref_no_post ⟨true, some (some ("222.000000"))⟩
    [["message_ts", "channel_id"]] [] "CREV2" (by rfl)

/-- C5 (amended): with every Messaging Gateway call failing and `forceNew`
false, queue reconciliation still returns (the embedding is a total
function), leaves the stored reference record unchanged, posts nothing, and
returns absent when no reference is stored and otherwise the stored
reference with its message locator normalized to Slack's six-decimal
timestamp format (the identity on canonical or non-numeric locators). -/
theorem queue_gateway_fail_returns_stored (queueVals : List (List String))
    (subs : List SubmissionRow) (review_channel_id : String) :
    (update_queue_message ⟨false, none⟩ queueVals subs review_channel_id false).queueVals
      = queueVals ∧
    (update_queue_message ⟨false, none⟩ queueVals subs review_channel_id false).posts
      = [] ∧
    ((update_queue_message ⟨false, none⟩ queueVals subs review_channel_id false).ref1,
     (update_queue_message ⟨false, none⟩ queueVals subs review_channel_id false).ref2)
      = match get_queue_ref queueVals with
        | none => (none, none)
        | some (t, c) => (_to_slack_ts t, some c) := by
  cases href : get_queue_ref queueVals with
  | none => simp [update_queue_message, href]
  | some tc =>
    obtain ⟨t, c⟩ := tc
    obtain ⟨hst, hsc, hnt, hnc⟩ := get_queue_ref_strip queueVals t c href
    obtain ⟨u, hu⟩ := _to_slack_ts_isSome t hst hnt
    simp [update_queue_message, href, hu, hsc, hnc]

/-- C5 counterexample: with stored locator `"123.4"` (not in canonical
six-decimal form) and a failing gateway, reconciliation returns
`"123.400000"`, which is not literally the previously stored pair. -/
theorem queue_gateway_fail_not_literally_stored :
    get_queue_ref [["message_ts", "channel_id"], ["123.4", "C9"]]
      = some ("123.4", "C9") ∧
    ((update_queue_message ⟨false, none⟩
        [["message_ts", "channel_id"], ["123.4", "C9"]] [] "REV" false).ref1,
     (update_queue_message ⟨false, none⟩
        [["message_ts", "channel_id"], ["123.4", "C9"]] [] "REV" false).ref2)
      ≠ (some ("123.4"), some ("C9")) := by
  exact ⟨rfl, by decide⟩

end CodeCompBot
